import Mathlib

/-!
Verification of the streaming relay of `ollama-gui` (src/main.rs).

The development shallowly embeds the relay task spawned by the two streaming
entry points `stream_response` (main.rs lines 230-337) and
`stream_with_files` (main.rs lines 340-474).  Bytes are modelled as `Nat`
(values < 256 in all uses), raw network chunks as `List Nat`, and the events
pushed into the `tokio` mpsc channel as the `String` payloads passed to
`Event::default().data(..)`.  The external collaborators (reqwest, serde_json,
the Rust standard library) are modelled at their interface boundary:
`serde_json::from_str::<OllamaChunk>` is a parameter
`parse : String → Except String OllamaChunk` (its `Err` display string),
`String::from_utf8_lossy` is the executable decoder `utf8Lossy` below, and
`String::len` (UTF-8 byte count) is `rustLen`.
-/

/-- Number of bytes of the UTF-8 encoding of one scalar value; used to model
Rust `String::len`, which counts UTF-8 bytes. -/
def charUtf8Size (c : Char) : Nat :=
  if c.toNat < 128 then 1
  else if c.toNat < 2048 then 2
  else if c.toNat < 65536 then 3
  else 4

/-- Model of Rust `String::len`: the byte length of the UTF-8 encoding. -/
def rustLen (s : String) : Nat := (s.data.map charUtf8Size).sum

/-- Concatenation of a list of strings (used to state specification-side
formulas such as the concatenation of fragments). -/
def concatStrings : List String → String
  | [] => ""
  | s :: rest => s ++ concatStrings rest

/-- The U+FFFD replacement character used by lossy UTF-8 decoding. -/
def repl : Char := Char.ofNat 0xFFFD

/-- Continuation-byte test for UTF-8 (0x80..0xBF). -/
def isCont (b : Nat) : Bool := 128 ≤ b && b < 192

/-- Admissible second byte of a three-byte UTF-8 sequence with lead `b`
(the E0/ED special ranges exclude overlong encodings and surrogates). -/
def cont3 (b b2 : Nat) : Bool :=
  if b = 224 then 160 ≤ b2 && b2 < 192
  else if b = 237 then 128 ≤ b2 && b2 < 160
  else isCont b2

/-- Admissible second byte of a four-byte UTF-8 sequence with lead `b`
(the F0/F4 special ranges exclude overlong encodings and values > U+10FFFF). -/
def cont4 (b b2 : Nat) : Bool :=
  if b = 240 then 144 ≤ b2 && b2 < 192
  else if b = 244 then 128 ≤ b2 && b2 < 144
  else isCont b2

/-- UTF-8 decoding with replacement characters, modelling Rust
`String::from_utf8_lossy` (main.rs lines 288 and 423).  It agrees with the
Rust function on all valid UTF-8 input; on malformed input it substitutes
U+FFFD per offending byte rather than per maximal invalid subpart, a
granularity the relay claims never depend on. -/
def utf8LossyAux : Nat → List Nat → List Char
  | 0, _ => []
  | _ + 1, [] => []
  | fuel + 1, b :: rest =>
    if b < 128 then Char.ofNat b :: utf8LossyAux fuel rest
    else if b < 194 then repl :: utf8LossyAux fuel rest
    else if b < 224 then
      match rest with
      | b2 :: rest2 =>
        if isCont b2 then
          Char.ofNat ((b - 192) * 64 + (b2 - 128)) :: utf8LossyAux fuel rest2
        else repl :: utf8LossyAux fuel rest
      | [] => [repl]
    else if b < 240 then
      match rest with
      | b2 :: b3 :: rest3 =>
        if cont3 b b2 && isCont b3 then
          Char.ofNat ((b - 224) * 4096 + (b2 - 128) * 64 + (b3 - 128))
            :: utf8LossyAux fuel rest3
        else repl :: utf8LossyAux fuel rest
      | _ => repl :: utf8LossyAux fuel rest
    else if b < 245 then
      match rest with
      | b2 :: b3 :: b4 :: rest4 =>
        if cont4 b b2 && isCont b3 && isCont b4 then
          Char.ofNat ((b - 240) * 262144 + (b2 - 128) * 4096 + (b3 - 128) * 64 + (b4 - 128))
            :: utf8LossyAux fuel rest4
        else repl :: utf8LossyAux fuel rest
      | _ => repl :: utf8LossyAux fuel rest
    else repl :: utf8LossyAux fuel rest

/-- String-valued lossy UTF-8 decoding of a byte list.  The fuel argument of
`utf8LossyAux` only forces structural recursion; each step consumes at least
one byte, so `bs.length` fuel always suffices. -/
def utf8Lossy (bs : List Nat) : String := String.mk (utf8LossyAux bs.length bs)

/-- One parsed backend record, mirroring `struct OllamaChunk` (main.rs
lines 51-55): `response: Option<String>, done: Option<bool>`. -/
structure OllamaChunk where
  response : Option String
  done : Option Bool
deriving DecidableEq

/-- One file sent to the file-augmented entry point, mirroring
`struct FileContext` (main.rs lines 57-61). -/
structure FileContext where
  name : String
  content : String
deriving DecidableEq

/-- State of the relay task while it consumes the backend stream:
`full_response` is the accumulator `let mut full_response = String::new()`
(main.rs lines 276 and 411); `events` records, in order, the `String`
payloads the task has passed to `tx.send(Ok(Event::default().data(..)))`. -/
structure RelayState where
  full_response : String
  events : List String
deriving DecidableEq

/-- Initial relay-task state: empty accumulator, nothing sent yet. -/
def relayInit : RelayState := ⟨"", []⟩

/-- Line scan over one buffer, mirroring main.rs lines 284-323 (identically
lines 419-458).  The source keeps indices `start ≤ i` into `buffer`; here
`seg` holds `buffer[start..i]` and the remaining list holds `buffer[i..]`.
At a newline byte with `i > start` (that is, `seg ≠ []`) the segment is
handed to `h` — the body of the `if i > start` block — and `start` becomes
`i + 1` (`seg := []`).  At a newline with `i == start` the source does not
advance `start`, so the newline byte stays in the segment.  When `h` signals
`true` the source executes `return`, abandoning buffer and stream; the
result records the state reached, the retained buffer `buffer[start..]`, and
whether the task returned. -/
def scanStep {σ : Type} (h : σ → List Nat → σ × Bool) :
    List Nat → σ → List Nat → σ × List Nat × Bool
  | [], s, seg => (s, seg, false)
  | b :: rest, s, seg =>
    if b = 10 then
      if seg = [] then scanStep h rest s [10]
      else
        match h s seg with
        | (s', true) => (s', [], true)
        | (s', false) => scanStep h rest s' []
    else scanStep h rest s (seg ++ [b])

/-- The chunk loop `while let Some(chunk) = response.chunk().await.unwrap_or(None)`
(main.rs lines 279-331, identically 414-466): append each chunk to the
retained buffer, scan it, and keep `buffer[start..]` for the next chunk
(`buffer = buffer[start..].to_vec()` or `buffer.clear()`, lines 326-330).
Returns the final state and whether the line handler aborted the task. -/
def runChunks {σ : Type} (h : σ → List Nat → σ × Bool) :
    List (List Nat) → σ → List Nat → σ × Bool
  | [], s, _ => (s, false)
  | c :: rest, s, buf =>
    match scanStep h (buf ++ c) s [] with
    | (s', _, true) => (s', true)
    | (s', buf', false) => runChunks h rest s' buf'

/-- Record-level semantics: feed a list of complete records to the line
handler in order, stopping when the handler aborts (the relay's per-record
behavior once the demultiplexer is factored out). -/
def foldRecords {σ : Type} (h : σ → List Nat → σ × Bool) :
    List (List Nat) → σ → σ × Bool
  | [], s => (s, false)
  | l :: rest, s =>
    match h s l with
    | (s', true) => (s', true)
    | (s', false) => foldRecords h rest s'

/-- Processing of one complete line, mirroring main.rs lines 288-320
(identically 423-455): decode the bytes lossily, parse them as an
`OllamaChunk`; on success append any `response` fragment to `full_response`
and send either the whole accumulated text (when its post-append UTF-8 byte
length is strictly below 100000) or just the fragment; a record with
`done == true` additionally sends `"[DONE]"` and returns from the task.
On parse failure send `"Error parsing JSON: <detail>"` and continue. -/
def handleLine (parse : String → Except String OllamaChunk)
    (s : RelayState) (lineBytes : List Nat) : RelayState × Bool :=
  match parse (utf8Lossy lineBytes) with
  | Except.ok c =>
    let s1 : RelayState :=
      match c.response with
      | some t =>
        let full := s.full_response ++ t
        if rustLen full < 100000 then ⟨full, s.events ++ [full]⟩
        else ⟨full, s.events ++ [t]⟩
      | none => s
    if c.done.getD false then (⟨s1.full_response, s1.events ++ ["[DONE]"]⟩, true)
    else (s1, false)
  | Except.error e => (⟨s.full_response, s.events ++ ["Error parsing JSON: " ++ e]⟩, false)

/-- Record-level run of the relay: `foldRecords` instantiated with the
source's line handler. -/
def processLines (parse : String → Except String OllamaChunk)
    (lines : List (List Nat)) (s : RelayState) : RelayState × Bool :=
  foldRecords (handleLine parse) lines s

/-- Result of one `response.chunk().await` read: `Except.error` is a
transport failure, `Except.ok none` is end of stream, `Except.ok (some c)`
is a data chunk. -/
def ReadResult : Type := Except String (Option (List Nat))

/-- The chunks actually consumed by `while let Some(chunk) =
response.chunk().await.unwrap_or(None)` (main.rs line 279, identically 414):
a read error is coerced to `None` by `unwrap_or`, so the loop exits at the
first failed or empty read. -/
def readsToChunks : List ReadResult → List (List Nat)
  | [] => []
  | Except.error _ :: _ => []
  | Except.ok none :: _ => []
  | Except.ok (some c) :: rest => c :: readsToChunks rest

/-- Model of the `reqwest::Response` as the relay consumes it:
`status().is_success()`, the `Display` of `status()`, the result of
`.text()` (`none` models a failed body read), and the sequence of
`.chunk()` read results. -/
structure HttpResponse where
  isSuccess : Bool
  statusText : String
  bodyText : Option String
  reads : List ReadResult

/-- Event payloads produced by the streaming loop over given chunks,
including the trailing `"[DONE]"` sent after the loop (main.rs line 333,
identically 469) — sent only when the loop was not aborted by a
`done == true` record, since that abort is a `return` from the task. -/
def streamBodyChunks (parse : String → Except String OllamaChunk)
    (chunks : List (List Nat)) : List String :=
  match runChunks (handleLine parse) chunks relayInit [] with
  | (s, true) => s.events
  | (s, false) => s.events ++ ["[DONE]"]

/-- Event payloads produced by the streaming loop over raw read results. -/
def streamBody (parse : String → Except String OllamaChunk)
    (reads : List ReadResult) : List String :=
  streamBodyChunks parse (readsToChunks reads)

/-- Relay task of `stream_response` (main.rs lines 249-334) from the point
the `send()` future resolves: a connection error sends `"Error: <e>"` then
`"[DONE]"`; otherwise the body is streamed directly — this entry point never
inspects the HTTP status code. -/
def stream_response_relay (parse : String → Except String OllamaChunk)
    (conn : Except String HttpResponse) : List String :=
  match conn with
  | Except.error e => ["Error: " ++ e, "[DONE]"]
  | Except.ok res => streamBody parse res.reads

/-- Relay task of `stream_with_files` (main.rs lines 373-470) from the point
the `send()` future resolves: a connection error sends `"Error: <e>"` then
`"[DONE]"`; a non-success status sends `"Error: HTTP <status> - <body>"`
(body read failure yielding `"Unknown error"`, lines 397-407) then
`"[DONE]"`; otherwise the body is streamed. -/
def stream_with_files_relay (parse : String → Except String OllamaChunk)
    (conn : Except String HttpResponse) : List String :=
  match conn with
  | Except.error e => ["Error: " ++ e, "[DONE]"]
  | Except.ok res =>
    if res.isSuccess then streamBody parse res.reads
    else ["Error: HTTP " ++ res.statusText ++ " - " ++ res.bodyText.getD "Unknown error",
          "[DONE]"]

/-- The line-demultiplexing loop observed in isolation: the same scan and
buffer-retention code, with the per-line body replaced by a collector that
records each extracted byte segment. -/
def demuxSegs (chunks : List (List Nat)) : List (List Nat) :=
  (runChunks (fun (recs : List (List Nat)) seg => (recs ++ [seg], false)) chunks [] []).1

/-- Serialization of a list of records as newline-terminated lines: the
shape of a backend byte stream containing exactly these records. -/
def encodeRecords (rs : List (List Nat)) : List Nat :=
  (rs.map (fun r => r ++ [10])).flatten

/-- Expected emission sequence for a fragment list starting from accumulated
text `a`: per fragment, the full accumulated text when its post-append
`rustLen` is strictly below 100000, otherwise the fragment alone. -/
def emissionsFrom (a : String) : List String → List String
  | [] => []
  | f :: rest =>
    (if rustLen (a ++ f) < 100000 then a ++ f else f) :: emissionsFrom (a ++ f) rest

/-- The accumulator `context_prompt` of `stream_with_files` (main.rs lines
348-353): fold over the files appending
`format!("File: {}\n(fence)\n{}\n(fence)\n\n", name, content)`
where (fence) is a three-backtick code fence. -/
def context_prompt (files : List FileContext) : String :=
  files.foldl (fun acc f => acc ++ ("File: " ++ f.name ++ "\n```\n" ++ f.content ++ "\n```\n\n")) ""

/-- The dispatched prompt `final_prompt` of `stream_with_files` (main.rs
lines 360-364): wrap a non-empty context block, otherwise pass the user
prompt through unchanged. -/
def final_prompt (files : List FileContext) (prompt : String) : String :=
  if context_prompt files ≠ "" then
    "I have the following files for context:\n\n" ++ context_prompt files
      ++ "\n\nBased on these files, " ++ prompt
  else prompt

/-- Context block as the specification words it: the concatenation, in input
order, of `"File: {name}\n(fence)\n{content}\n(fence)\n\n"` per file. -/
def context_block_spec (files : List FileContext) : String :=
  concatStrings (files.map (fun f => "File: " ++ f.name ++ "\n```\n" ++ f.content ++ "\n```\n\n"))

deriving instance DecidableEq for Except

/-! ### Test inputs for the concrete instantiations below -/

/-- UTF-8 bytes of an ASCII string; all concrete inputs below are ASCII, for
which the code points coincide with the UTF-8 bytes. -/
def asciiBytes (s : String) : List Nat := s.data.map Char.toNat

/-- Concrete stand-in for `serde_json::from_str::<OllamaChunk>` on the
finite set of lines exercised by the concrete instances below, mapping each
backend line to its parse result (the error string mirrors a serde detail). -/
def mockParse : String → Except String OllamaChunk := fun line =>
  if line = "\x7b\"response\":\"Hel\"\x7d" then Except.ok ⟨some "Hel", none⟩
  else if line = "\x7b\"response\":\"lo\"\x7d" then Except.ok ⟨some "lo", none⟩
  else if line = "\x7b\"done\":true\x7d" then Except.ok ⟨none, some true⟩
  else Except.error "expected value"

/-! ### String facts -/

theorem rustLen_append (a b : String) : rustLen (a ++ b) = rustLen a + rustLen b := by
  simp [rustLen, String.data_append]

/-! ### Scan-loop lemmas

The scan of one buffer composes over concatenation of its byte list, never
emits across a chunk boundary it has not yet seen, and retains exactly the
bytes after the last consumed newline.  Together these give the shape of the
whole streaming loop as a record-level fold. -/

theorem scanStep_append {σ : Type} (h : σ → List Nat → σ × Bool)
    (xs : List Nat) : ∀ (ys : List Nat) (s : σ) (seg : List Nat),
    scanStep h (xs ++ ys) s seg =
      (if (scanStep h xs s seg).2.2 then scanStep h xs s seg
       else scanStep h ys (scanStep h xs s seg).1 (scanStep h xs s seg).2.1) := by
  induction xs with
  | nil => intro ys s seg; simp [scanStep]
  | cons b rest ih =>
    intro ys s seg
    by_cases hb : b = 10
    · subst hb
      by_cases hseg : seg = []
      · subst hseg
        simpa [scanStep] using ih ys s [10]
      · rcases hr : h s seg with ⟨s', ab⟩
        cases ab
        · simpa [scanStep, hseg, hr] using ih ys s' []
        · simp [scanStep, hseg, hr]
    · simpa [scanStep, hb] using ih ys s (seg ++ [b])

theorem scanStep_no_newline {σ : Type} (h : σ → List Nat → σ × Bool) :
    ∀ (xs : List Nat), (10 : Nat) ∉ xs → ∀ (ys : List Nat) (s : σ) (seg : List Nat),
    scanStep h (xs ++ ys) s seg = scanStep h ys s (seg ++ xs)
  | [], _, ys, s, seg => by simp
  | b :: rest, hxs, ys, s, seg => by
    have hb : ¬(b = 10) := fun hb => hxs (by simp [hb])
    have hrest : (10 : Nat) ∉ rest := fun hm => hxs (List.mem_cons_of_mem _ hm)
    calc scanStep h ((b :: rest) ++ ys) s seg
        = scanStep h (rest ++ ys) s (seg ++ [b]) := by simp [scanStep, hb]
      _ = scanStep h ys s ((seg ++ [b]) ++ rest) :=
          scanStep_no_newline h rest hrest ys s (seg ++ [b])
      _ = scanStep h ys s (seg ++ (b :: rest)) := by simp

/-- The retained buffer only ever holds a newline as its first byte: the
scan fails to consume a newline only when the segment before it is empty. -/
def okSeg (seg : List Nat) : Prop := (10 : Nat) ∉ seg.drop 1

theorem okSeg_nil : okSeg [] := by simp [okSeg]

theorem okSeg_newline : okSeg [10] := by simp [okSeg]

theorem okSeg_push {seg : List Nat} {b : Nat} (hs : okSeg seg) (hb : ¬(b = 10)) :
    okSeg (seg ++ [b]) := by
  cases seg with
  | nil => simp [okSeg]
  | cons c t =>
    simp [okSeg] at hs ⊢
    exact ⟨hs, fun hb' => hb hb'.symm⟩

theorem scanStep_okSeg {σ : Type} (h : σ → List Nat → σ × Bool) :
    ∀ (xs : List Nat) (s : σ) (seg : List Nat), okSeg seg →
      okSeg (scanStep h xs s seg).2.1
  | [], _, seg, hs => by simpa [scanStep] using hs
  | b :: rest, s, seg, hs => by
    by_cases hb : b = 10
    · subst hb
      by_cases hseg : seg = []
      · subst hseg
        simpa [scanStep] using scanStep_okSeg h rest s [10] okSeg_newline
      · rcases hr : h s seg with ⟨s', ab⟩
        cases ab
        · simpa [scanStep, hseg, hr] using scanStep_okSeg h rest s' [] okSeg_nil
        · simpa [scanStep, hseg, hr] using okSeg_nil
    · simpa [scanStep, hb] using scanStep_okSeg h rest s (seg ++ [b]) (okSeg_push hs hb)

/-- Re-scanning the retained buffer from scratch — which is what the source
does after appending the next chunk — behaves exactly like continuing the
previous scan with that buffer as the pending segment. -/
theorem scanStep_rescan {σ : Type} (h : σ → List Nat → σ × Bool)
    (seg : List Nat) (hs : okSeg seg) (ys : List Nat) (s : σ) :
    scanStep h (seg ++ ys) s [] = scanStep h ys s seg := by
  cases seg with
  | nil => simp
  | cons b t =>
    have ht : (10 : Nat) ∉ t := by simpa [okSeg] using hs
    by_cases hb : b = 10
    · subst hb
      calc scanStep h ((10 :: t) ++ ys) s []
          = scanStep h (t ++ ys) s [10] := by simp [scanStep]
        _ = scanStep h ys s ([10] ++ t) := scanStep_no_newline h t ht ys s [10]
        _ = scanStep h ys s (10 :: t) := by simp
    · have hmem : (10 : Nat) ∉ b :: t := by
        intro hm
        rcases List.mem_cons.mp hm with hm | hm
        · exact hb hm.symm
        · exact ht hm
      simpa using scanStep_no_newline h (b :: t) hmem ys s []

/-- Partition independence of the chunk loop: starting from a well-formed
retained buffer, running the loop over any chunk list depends only on the
concatenation of the buffer and the chunks. -/
theorem runChunks_flatten {σ : Type} (h : σ → List Nat → σ × Bool) :
    ∀ (chunks : List (List Nat)) (s : σ) (buf : List Nat), okSeg buf →
    runChunks h chunks s buf =
      ((scanStep h (buf ++ chunks.flatten) s []).1,
       (scanStep h (buf ++ chunks.flatten) s []).2.2)
  | [], s, buf, hbuf => by
    have hres := scanStep_rescan h buf hbuf [] s
    simp [scanStep] at hres
    simp [runChunks, hres]
  | c :: rest, s, buf, hbuf => by
    rcases hsc : scanStep h (buf ++ c) s [] with ⟨s', buf', ab⟩
    have hok : okSeg buf' := by
      have h2 := scanStep_okSeg h (buf ++ c) s [] okSeg_nil
      rw [hsc] at h2; exact h2
    have hap := scanStep_append h (buf ++ c) rest.flatten s []
    rw [hsc] at hap
    have hflat : buf ++ (c :: rest).flatten = (buf ++ c) ++ rest.flatten := by
      simp
    cases ab
    · calc runChunks h (c :: rest) s buf
          = runChunks h rest s' buf' := by simp [runChunks, hsc]
        _ = ((scanStep h (buf' ++ rest.flatten) s' []).1,
             (scanStep h (buf' ++ rest.flatten) s' []).2.2) :=
            runChunks_flatten h rest s' buf' hok
        _ = ((scanStep h (buf ++ (c :: rest).flatten) s []).1,
             (scanStep h (buf ++ (c :: rest).flatten) s []).2.2) := by
            rw [scanStep_rescan h buf' hok, hflat, hap]; simp
    · calc runChunks h (c :: rest) s buf
          = (s', true) := by simp [runChunks, hsc]
        _ = ((scanStep h (buf ++ (c :: rest).flatten) s []).1,
             (scanStep h (buf ++ (c :: rest).flatten) s []).2.2) := by
            rw [hflat, hap]; simp

/-- Scanning a byte stream made of nonempty newline-free records, each
terminated by a newline, followed by a newline-free tail, hands exactly
those records to the handler in order and retains the tail. -/
theorem scanStep_records {σ : Type} (h : σ → List Nat → σ × Bool) :
    ∀ (records : List (List Nat)), (∀ r ∈ records, r ≠ [] ∧ (10 : Nat) ∉ r) →
    ∀ (tl : List Nat) (s : σ), (10 : Nat) ∉ tl →
    scanStep h (encodeRecords records ++ tl) s [] =
      (if (foldRecords h records s).2
       then ((foldRecords h records s).1, [], true)
       else ((foldRecords h records s).1, tl, false))
  | [], _, tl, s, ht => by
    have hres := scanStep_no_newline h tl ht [] s []
    simp [scanStep] at hres
    simp [encodeRecords, foldRecords, hres]
  | r :: rest, hrec, tl, s, ht => by
    obtain ⟨hne, hnl⟩ := hrec r (List.mem_cons_self r rest)
    have hrest : ∀ x ∈ rest, x ≠ [] ∧ (10 : Nat) ∉ x :=
      fun x hx => hrec x (List.mem_cons_of_mem _ hx)
    have henc : encodeRecords (r :: rest) ++ tl = r ++ (10 :: (encodeRecords rest ++ tl)) := by
      simp [encodeRecords]
    rw [henc, scanStep_no_newline h r hnl _ s []]
    rcases hr : h s r with ⟨s', ab⟩
    cases ab
    · have := scanStep_records h rest hrest tl s' ht
      simp [scanStep, hne, hr, foldRecords, this]
    · simp [scanStep, hne, hr, foldRecords]

theorem foldRecords_append {σ : Type} (h : σ → List Nat → σ × Bool) :
    ∀ (xs ys : List (List Nat)) (s : σ),
    foldRecords h (xs ++ ys) s =
      (if (foldRecords h xs s).2 then foldRecords h xs s
       else foldRecords h ys (foldRecords h xs s).1)
  | [], ys, s => by simp [foldRecords]
  | l :: rest, ys, s => by
    rcases hr : h s l with ⟨s', ab⟩
    cases ab
    · simp [foldRecords, hr, foldRecords_append h rest ys s']
    · simp [foldRecords, hr]

/-! ### Record-level lemmas about the relay's line handler -/

/-- The line handler only appends to the event log: its behavior on the
accumulator and the events it emits are independent of the events already
sent. -/
theorem handleLine_frame (parse : String → Except String OllamaChunk)
    (a : String) (evs : List String) (l : List Nat) :
    handleLine parse ⟨a, evs⟩ l =
      (⟨(handleLine parse ⟨a, []⟩ l).1.full_response,
        evs ++ (handleLine parse ⟨a, []⟩ l).1.events⟩,
       (handleLine parse ⟨a, []⟩ l).2) := by
  unfold handleLine
  cases hp : parse (utf8Lossy l) with
  | error e => simp
  | ok c =>
    cases hcr : c.response with
    | none => cases hcd : c.done.getD false <;> simp [hcr, hcd]
    | some t =>
      by_cases hlen : rustLen (a ++ t) < 100000 <;>
        cases hcd : c.done.getD false <;> simp [hcr, hlen, hcd]

/-- Event-log framing for a whole record sequence. -/
theorem processLines_frame (parse : String → Except String OllamaChunk) :
    ∀ (lines : List (List Nat)) (a : String) (evs : List String),
    processLines parse lines ⟨a, evs⟩ =
      (⟨(processLines parse lines ⟨a, []⟩).1.full_response,
        evs ++ (processLines parse lines ⟨a, []⟩).1.events⟩,
       (processLines parse lines ⟨a, []⟩).2)
  | [], a, evs => by simp [processLines, foldRecords]
  | l :: rest, a, evs => by
    rcases hl : handleLine parse ⟨a, []⟩ l with ⟨⟨a1, evs1⟩, ab⟩
    have hl' : handleLine parse ⟨a, evs⟩ l = (⟨a1, evs ++ evs1⟩, ab) := by
      rw [handleLine_frame parse a evs l, hl]
    cases ab
    · have h1 := processLines_frame parse rest a1 (evs ++ evs1)
      have h2 := processLines_frame parse rest a1 evs1
      simp only [processLines, foldRecords, hl, hl']
      rw [show foldRecords (handleLine parse) rest ⟨a1, evs ++ evs1⟩
            = processLines parse rest ⟨a1, evs ++ evs1⟩ from rfl,
          show foldRecords (handleLine parse) rest ⟨a1, evs1⟩
            = processLines parse rest ⟨a1, evs1⟩ from rfl,
          h1, h2]
      simp
    · simp [processLines, foldRecords, hl, hl']

/-- Core accumulation lemma: a run of records that all parse to fragment
chunks without `done == true` appends the concatenation of the fragments to
the accumulator and emits, per fragment, the cumulative text when small
enough and the fragment alone otherwise. -/
theorem processLines_fragments (parse : String → Except String OllamaChunk) :
    ∀ (recs : List (List Nat × String × Option Bool)),
    (∀ p ∈ recs, parse (utf8Lossy p.1) = Except.ok ⟨some p.2.1, p.2.2⟩ ∧ p.2.2 ≠ some true) →
    ∀ (a : String) (evs : List String),
    processLines parse (recs.map (fun p => p.1)) ⟨a, evs⟩ =
      (⟨a ++ concatStrings (recs.map (fun p => p.2.1)),
        evs ++ emissionsFrom a (recs.map (fun p => p.2.1))⟩, false)
  | [], _, a, evs => by
    simp [processLines, foldRecords, concatStrings, emissionsFrom, String.append_empty]
  | p :: rest, hp, a, evs => by
    obtain ⟨hparse, hdone⟩ := hp p (List.mem_cons_self p rest)
    have hrest : ∀ q ∈ rest,
        parse (utf8Lossy q.1) = Except.ok ⟨some q.2.1, q.2.2⟩ ∧ q.2.2 ≠ some true :=
      fun q hq => hp q (List.mem_cons_of_mem _ hq)
    have hgd : p.2.2.getD false = false := by
      cases hd : p.2.2 with
      | none => rfl
      | some b =>
        cases b with
        | true => exact absurd hd hdone
        | false => rfl
    have hstep : handleLine parse ⟨a, evs⟩ p.1 =
        (⟨a ++ p.2.1,
          evs ++ [if rustLen (a ++ p.2.1) < 100000 then a ++ p.2.1 else p.2.1]⟩, false) := by
      unfold handleLine
      rw [hparse]
      by_cases hlen : rustLen (a ++ p.2.1) < 100000 <;> simp [hlen, hgd]
    have ih := processLines_fragments parse rest hrest (a ++ p.2.1)
      (evs ++ [if rustLen (a ++ p.2.1) < 100000 then a ++ p.2.1 else p.2.1])
    simp only [List.map_cons, processLines, foldRecords, hstep]
    rw [show foldRecords (handleLine parse) (rest.map (fun p => p.1))
          ⟨a ++ p.2.1, evs ++ [if rustLen (a ++ p.2.1) < 100000 then a ++ p.2.1 else p.2.1]⟩
        = processLines parse (rest.map (fun p => p.1))
          ⟨a ++ p.2.1, evs ++ [if rustLen (a ++ p.2.1) < 100000 then a ++ p.2.1 else p.2.1]⟩
        from rfl, ih]
    simp [concatStrings, emissionsFrom, String.append_assoc]

/-! ### Claim C1 — accumulation and emission policy -/

/-- C1: for every sequence of parsed backend records carrying fragments
`f1..fn` with no `done` record in between, processing them leaves the
accumulated text equal to `f1 ++ ... ++ fn`, and the event emitted for each
fragment is the full cumulative text when its post-append UTF-8 byte length
is strictly below 100000 and exactly the latest fragment otherwise (so with
the cumulative length at 100000 or more before a fragment — in particular
exactly 100000 — only the fragment is emitted, the second conjunct). -/
theorem C1_accumulation_emission (parse : String → Except String OllamaChunk)
    (recs : List (List Nat × String × Option Bool))
    (hrec : ∀ p ∈ recs,
      parse (utf8Lossy p.1) = Except.ok ⟨some p.2.1, p.2.2⟩ ∧ p.2.2 ≠ some true) :
    processLines parse (recs.map (fun p => p.1)) relayInit =
      (⟨concatStrings (recs.map (fun p => p.2.1)),
        emissionsFrom "" (recs.map (fun p => p.2.1))⟩, false)
    ∧ ∀ (a f : String), 100000 ≤ rustLen a →
        (if rustLen (a ++ f) < 100000 then a ++ f else f) = f := by
  constructor
  · have h := processLines_fragments parse recs hrec "" []
    simpa [relayInit, String.empty_append] using h
  · intro a f hlen
    have hge : ¬ rustLen (a ++ f) < 100000 := by
      rw [rustLen_append]; omega
    simp [hge]

theorem C1_accumulation_emission_witness :
    processLines mockParse
      [asciiBytes "\x7b\"response\":\"Hel\"\x7d", asciiBytes "\x7b\"response\":\"lo\"\x7d"]
      relayInit = (⟨"Hello", ["Hel", "Hello"]⟩, false) := by
  have h := C1_accumulation_emission mockParse
    [(asciiBytes "\x7b\"response\":\"Hel\"\x7d", "Hel", (none : Option Bool)),
     (asciiBytes "\x7b\"response\":\"lo\"\x7d", "lo", (none : Option Bool))]
    (by decide)
  exact h.1.trans (by decide)

/-! ### Claim C2 — partition-independent line reconstruction -/

/-- C2: for every byte sequence made of newline-terminated records (each
nonempty and newline-free, possibly followed by an unterminated tail) and
every partition of it into arbitrarily-sized chunks, the line-demultiplexing
loop extracts exactly those records, in order, independent of where the
chunk boundaries fall. -/
theorem C2_line_reconstruction (records chunks : List (List Nat)) (tl : List Nat)
    (hrec : ∀ r ∈ records, r ≠ [] ∧ (10 : Nat) ∉ r)
    (htail : (10 : Nat) ∉ tl)
    (hpart : chunks.flatten = encodeRecords records ++ tl) :
    demuxSegs chunks = records := by
  unfold demuxSegs
  rw [runChunks_flatten _ chunks _ [] okSeg_nil]
  have hcol : ∀ (rs : List (List Nat)) (acc : List (List Nat)),
      foldRecords (fun (recs : List (List Nat)) seg => (recs ++ [seg], false)) rs acc
        = (acc ++ rs, false) := by
    intro rs
    induction rs with
    | nil => intro acc; simp [foldRecords]
    | cons r t ih => intro acc; simp [foldRecords, ih]
  have hscan := scanStep_records
    (fun (recs : List (List Nat)) seg => (recs ++ [seg], false)) records hrec tl [] htail
  simp only [List.nil_append, hpart, hscan, hcol records []]
  simp

theorem C2_line_reconstruction_witness :
    demuxSegs [[72], [105, 10, 33], [10]] = [[72, 105], [33]] :=
  C2_line_reconstruction [[72, 105], [33]] [[72], [105, 10, 33], [10]] []
    (by decide) (by decide) (by decide)

/-! ### Claim C3 — what the demultiplexer emits around an empty segment -/

/-- C3 (failing instance): on the single chunk `"a\n\nb\n"` the
demultiplexing loop emits the records `"a"` and `"\nb"` — because the scan
does not advance `start` past a newline that closes an empty segment, the
newline bleeds into the following record — contradicting the claim that
every emitted record is exactly the bytes between two consecutive newline
markers and that an empty segment has no effect on other records. -/
theorem C3_empty_segment_bug :
    demuxSegs [[97, 10, 10, 98, 10]] = [[97], [10, 98]] ∧
    utf8Lossy [10, 98] = "\nb" ∧
    demuxSegs [[97, 10, 10, 98, 10]] ≠ [[97], [98]] :=
  ⟨by decide, by decide, by decide⟩

/-! ### Claim C4 — a done record terminates the relay -/

/-- C4: when a parsed record has `done == true`, the relay emits exactly one
`"[DONE]"` (preceded only by that record's own fragment event, if any) and
terminates: the output is independent of the complete records still buffered
after the done record (`post`), of any trailing bytes (`tl`), and of how the
stream was chunked, and the end-of-stream `"[DONE]"` is not also sent. -/
theorem C4_done_terminates (parse : String → Except String OllamaChunk)
    (pre post : List (List Nat)) (dl tl : List Nat)
    (chunks : List (List Nat)) (c : OllamaChunk)
    (hpre : ∀ r ∈ pre, r ≠ [] ∧ (10 : Nat) ∉ r)
    (hpost : ∀ r ∈ post, r ≠ [] ∧ (10 : Nat) ∉ r)
    (hdl : dl ≠ [] ∧ (10 : Nat) ∉ dl)
    (htail : (10 : Nat) ∉ tl)
    (hpart : chunks.flatten = encodeRecords (pre ++ dl :: post) ++ tl)
    (hparse : parse (utf8Lossy dl) = Except.ok c)
    (hdone : c.done = some true)
    (hnd : (processLines parse pre relayInit).2 = false) :
    streamBodyChunks parse chunks =
      (processLines parse pre relayInit).1.events ++
        (match c.response with
         | some t =>
           if rustLen ((processLines parse pre relayInit).1.full_response ++ t) < 100000
           then [(processLines parse pre relayInit).1.full_response ++ t, "[DONE]"]
           else [t, "[DONE]"]
         | none => ["[DONE]"]) := by
  have hall : ∀ r ∈ pre ++ dl :: post, r ≠ [] ∧ (10 : Nat) ∉ r := by
    intro r hr
    rcases List.mem_append.mp hr with h | h
    · exact hpre r h
    · rcases List.mem_cons.mp h with h | h
      · subst h; exact hdl
      · exact hpost r h
  rcases hsp : processLines parse pre relayInit with ⟨sPre, abPre⟩
  rw [hsp] at hnd
  simp only at hnd
  subst hnd
  have hstep : handleLine parse sPre dl =
      ((match c.response with
        | some t =>
          if rustLen (sPre.full_response ++ t) < 100000
          then ⟨sPre.full_response ++ t, sPre.events ++ [sPre.full_response ++ t, "[DONE]"]⟩
          else ⟨sPre.full_response ++ t, sPre.events ++ [t, "[DONE]"]⟩
        | none => ⟨sPre.full_response, sPre.events ++ ["[DONE]"]⟩), true) := by
    unfold handleLine
    rw [hparse]
    cases hcr : c.response with
    | none => simp [hcr, hdone]
    | some t =>
      by_cases hlen : rustLen (sPre.full_response ++ t) < 100000 <;> simp [hcr, hlen, hdone]
  have hfold : foldRecords (handleLine parse) (pre ++ dl :: post) relayInit =
      ((match c.response with
        | some t =>
          if rustLen (sPre.full_response ++ t) < 100000
          then ⟨sPre.full_response ++ t, sPre.events ++ [sPre.full_response ++ t, "[DONE]"]⟩
          else ⟨sPre.full_response ++ t, sPre.events ++ [t, "[DONE]"]⟩
        | none => ⟨sPre.full_response, sPre.events ++ ["[DONE]"]⟩), true) := by
    rw [foldRecords_append]
    rw [show foldRecords (handleLine parse) pre relayInit = (sPre, false) from hsp]
    simp [foldRecords, hstep]
  unfold streamBodyChunks
  rw [runChunks_flatten _ chunks _ [] okSeg_nil]
  simp only [List.nil_append]
  rw [hpart, scanStep_records _ _ hall tl _ htail, hfold]
  cases hcr : c.response with
  | none => simp [hcr]
  | some t =>
    by_cases hlen : rustLen (sPre.full_response ++ t) < 100000 <;> simp [hcr, hlen]

/-- Byte stream for the C4 instance: a fragment record, a done record, a
further complete record and a trailing partial record. -/
def c4stream : List Nat :=
  encodeRecords
    [asciiBytes "\x7b\"response\":\"Hel\"\x7d", asciiBytes "\x7b\"done\":true\x7d",
     asciiBytes "\x7b\"response\":\"lo\"\x7d"] ++ [104, 105]

/-- A partition of `c4stream` splitting it in the middle of its first record. -/
def c4chunks : List (List Nat) := [c4stream.take 7, c4stream.drop 7]

theorem C4_done_terminates_witness :
    streamBodyChunks mockParse c4chunks = ["Hel", "[DONE]"] := by
  have h := C4_done_terminates mockParse
    [asciiBytes "\x7b\"response\":\"Hel\"\x7d"]
    [asciiBytes "\x7b\"response\":\"lo\"\x7d"]
    (asciiBytes "\x7b\"done\":true\x7d") [104, 105] c4chunks ⟨none, some true⟩
    (by decide) (by decide) (by decide) (by decide) (by decide)
    (by decide) (by decide) (by decide)
  exact h.trans (by decide)

/-! ### Claim C7 — a malformed record is never fatal -/

/-- C7: a record whose bytes fail to parse produces exactly one
`"Error parsing JSON: <detail>"` event, leaves the accumulated text
unchanged, and does not terminate the stream: the records after it (and in
later chunks) are processed exactly as they would be from the same
accumulator with a fresh event log. -/
theorem C7_parse_error_resilience (parse : String → Except String OllamaChunk)
    (pre post : List (List Nat)) (bad tl : List Nat)
    (chunks : List (List Nat)) (msg : String)
    (hpre : ∀ r ∈ pre, r ≠ [] ∧ (10 : Nat) ∉ r)
    (hpost : ∀ r ∈ post, r ≠ [] ∧ (10 : Nat) ∉ r)
    (hbadw : bad ≠ [] ∧ (10 : Nat) ∉ bad)
    (htail : (10 : Nat) ∉ tl)
    (hpart : chunks.flatten = encodeRecords (pre ++ bad :: post) ++ tl)
    (hbad : parse (utf8Lossy bad) = Except.error msg)
    (hnd : (processLines parse pre relayInit).2 = false) :
    streamBodyChunks parse chunks =
      (processLines parse pre relayInit).1.events
        ++ ["Error parsing JSON: " ++ msg]
        ++ (processLines parse post
              ⟨(processLines parse pre relayInit).1.full_response, []⟩).1.events
        ++ (if (processLines parse post
                  ⟨(processLines parse pre relayInit).1.full_response, []⟩).2
            then [] else ["[DONE]"]) := by
  have hall : ∀ r ∈ pre ++ bad :: post, r ≠ [] ∧ (10 : Nat) ∉ r := by
    intro r hr
    rcases List.mem_append.mp hr with h | h
    · exact hpre r h
    · rcases List.mem_cons.mp h with h | h
      · subst h; exact hbadw
      · exact hpost r h
  rcases hsp : processLines parse pre relayInit with ⟨sPre, abPre⟩
  rw [hsp] at hnd
  simp only at hnd
  subst hnd
  rcases hpp : processLines parse post ⟨sPre.full_response, []⟩ with ⟨sPost, abPost⟩
  have hstep : handleLine parse sPre bad =
      (⟨sPre.full_response, sPre.events ++ ["Error parsing JSON: " ++ msg]⟩, false) := by
    unfold handleLine
    rw [hbad]
  have hfr := processLines_frame parse post sPre.full_response
    (sPre.events ++ ["Error parsing JSON: " ++ msg])
  rw [hpp] at hfr
  have hfold : foldRecords (handleLine parse) (pre ++ bad :: post) relayInit =
      (⟨sPost.full_response,
        (sPre.events ++ ["Error parsing JSON: " ++ msg]) ++ sPost.events⟩, abPost) := by
    rw [foldRecords_append]
    rw [show foldRecords (handleLine parse) pre relayInit = (sPre, false) from hsp]
    simp only [Bool.false_eq_true, if_false]
    show foldRecords (handleLine parse) (bad :: post) sPre = _
    rw [foldRecords, hstep]
    exact hfr
  unfold streamBodyChunks
  rw [runChunks_flatten _ chunks _ [] okSeg_nil]
  simp only [List.nil_append]
  rw [hpart, scanStep_records _ _ hall tl _ htail, hfold]
  cases abPost <;> simp

/-- Single-chunk stream for the C7 instance: a fragment record, an
unparseable record, then a further fragment record. -/
def c7chunks : List (List Nat) :=
  [encodeRecords
    [asciiBytes "\x7b\"response\":\"Hel\"\x7d", asciiBytes "oops",
     asciiBytes "\x7b\"response\":\"lo\"\x7d"]]

theorem C7_parse_error_resilience_witness :
    streamBodyChunks mockParse c7chunks
      = ["Hel", "Error parsing JSON: expected value", "Hello", "[DONE]"] := by
  have h := C7_parse_error_resilience mockParse
    [asciiBytes "\x7b\"response\":\"Hel\"\x7d"]
    [asciiBytes "\x7b\"response\":\"lo\"\x7d"]
    (asciiBytes "oops") [] c7chunks "expected value"
    (by decide) (by decide) (by decide) (by decide) (by decide)
    (by decide) (by decide)
  exact h.trans (by decide)

/-! ### Claim C5 — HTTP status checking -/

/-- A non-success backend response whose body nevertheless contains a
well-formed record stream. -/
def badRes : HttpResponse :=
  ⟨false, "404 Not Found", some "model not found",
   [Except.ok (some (asciiBytes "\x7b\"response\":\"Hel\"\x7d\n"))]⟩

/-- C5 counterexample: the plain-prompt entry point performs no status
check — on this non-success response it streams the body (emitting the
fragment `"Hel"`) instead of the claimed `"Error: HTTP <status> - <body>"`
followed by `"[DONE]"`. -/
theorem C5_counterexample :
    stream_response_relay mockParse (Except.ok badRes) = ["Hel", "[DONE]"] ∧
    stream_response_relay mockParse (Except.ok badRes)
      ≠ ["Error: HTTP 404 Not Found - model not found", "[DONE]"] :=
  ⟨by decide, by decide⟩

/-- C5 amended: only the file-augmented entry point checks the HTTP status,
emitting `"Error: HTTP <status> - <body>"` (body read failure yielding
`"Unknown error"`) followed by `"[DONE]"` and terminating without streaming;
the plain-prompt entry point ignores the status and processes the body as a
stream. -/
theorem C5_status_check (parse : String → Except String OllamaChunk)
    (res : HttpResponse) (hfail : res.isSuccess = false) :
    stream_with_files_relay parse (Except.ok res) =
      ["Error: HTTP " ++ res.statusText ++ " - " ++ res.bodyText.getD "Unknown error",
       "[DONE]"]
    ∧ stream_response_relay parse (Except.ok res) = streamBody parse res.reads := by
  refine ⟨?_, rfl⟩
  simp [stream_with_files_relay, hfail]

theorem C5_status_check_witness :
    stream_with_files_relay mockParse (Except.ok ⟨false, "404 Not Found", none, []⟩) =
      ["Error: HTTP " ++ "404 Not Found" ++ " - " ++ "Unknown error", "[DONE]"] ∧
    stream_response_relay mockParse (Except.ok ⟨false, "404 Not Found", none, []⟩) =
      streamBody mockParse [] :=
  C5_status_check mockParse ⟨false, "404 Not Found", none, []⟩ rfl

/-! ### Claim C6 — end-of-stream Done in both entry points -/

/-- A successful backend response whose stream ends without a done record. -/
def plainRes : HttpResponse :=
  ⟨true, "200 OK", none,
   [Except.ok (some (asciiBytes "\x7b\"response\":\"Hel\"\x7d\n"))]⟩

/-- C6 counterexample: the claim repeats the specification's assertion that
only one of the two entry points emits the end-of-stream `"[DONE]"`; on this
stream, which ends without a `done == true` record, both entry points emit
it (the two loops are identical — they differ only in the HTTP status
check). -/
theorem C6_counterexample :
    stream_response_relay mockParse (Except.ok plainRes) = ["Hel", "[DONE]"] ∧
    stream_with_files_relay mockParse (Except.ok plainRes) = ["Hel", "[DONE]"] :=
  ⟨by decide, by decide⟩

/-- C6 amended: if the backend stream ends without ever producing a
`done == true` record (so the chunk loop does not abort), then BOTH entry
points emit `"[DONE]"` as their final event. -/
theorem C6_end_of_stream_done (parse : String → Except String OllamaChunk)
    (res : HttpResponse)
    (hnodone : (runChunks (handleLine parse) (readsToChunks res.reads) relayInit []).2
      = false) :
    (stream_response_relay parse (Except.ok res)).getLast? = some "[DONE]" ∧
    (res.isSuccess = true →
      (stream_with_files_relay parse (Except.ok res)).getLast? = some "[DONE]") := by
  rcases hrc : runChunks (handleLine parse) (readsToChunks res.reads) relayInit []
    with ⟨s, ab⟩
  rw [hrc] at hnodone
  simp only at hnodone
  subst hnodone
  have hbody : streamBody parse res.reads = s.events ++ ["[DONE]"] := by
    unfold streamBody streamBodyChunks
    rw [hrc]
  constructor
  · show (streamBody parse res.reads).getLast? = some "[DONE]"
    rw [hbody]; simp
  · intro hs
    simp [stream_with_files_relay, hs, hbody]

theorem C6_end_of_stream_done_witness :
    (stream_response_relay mockParse (Except.ok plainRes)).getLast? = some "[DONE]" :=
  (C6_end_of_stream_done mockParse plainRes (by decide)).1

/-! ### Claim C8 — prompt composition formula -/

/-- C8: the file-augmented entry point dispatches, for a non-empty context
block, the prompt
`"I have the following files for context:\n\n" ++ block ++ "\n\nBased on these files, " ++ prompt`
where `block` concatenates, in input order, one fenced section per file; an
empty file sequence leaves the user prompt unchanged. -/
theorem C8_prompt_composition (files : List FileContext) (prompt : String) :
    final_prompt files prompt =
      (if context_block_spec files ≠ "" then
        "I have the following files for context:\n\n" ++ context_block_spec files
          ++ "\n\nBased on these files, " ++ prompt
       else prompt)
    ∧ (files = [] → final_prompt files prompt = prompt) := by
  have hfold : ∀ (fs : List FileContext) (acc : String),
      fs.foldl
        (fun acc f => acc ++ ("File: " ++ f.name ++ "\n```\n" ++ f.content ++ "\n```\n\n"))
        acc
      = acc ++ concatStrings
          (fs.map (fun f => "File: " ++ f.name ++ "\n```\n" ++ f.content ++ "\n```\n\n")) := by
    intro fs
    induction fs with
    | nil => intro acc; simp [concatStrings, String.append_empty]
    | cons f t ih =>
      intro acc
      simp only [List.foldl_cons, List.map_cons, concatStrings]
      rw [ih, String.append_assoc]
  have heq : context_prompt files = context_block_spec files := by
    simp only [context_prompt, context_block_spec, hfold files ""]
    exact String.empty_append _
  constructor
  · rw [final_prompt, heq]
  · intro h
    subst h
    simp [final_prompt, context_prompt]

theorem C8_prompt_composition_witness : final_prompt [] "hi" = "hi" :=
  (C8_prompt_composition [] "hi").2 rfl

/-! ### Claim C9 — the worked composition example -/

/-- C9 counterexample: on the file `a.py` with content `x=1` and prompt
`explain`, the dispatched prompt is NOT the literal claimed by the
specification (which puts three newlines between the closing fence and
`Based`): the context block itself ends with two newlines and the template
contributes two more, so four newlines separate them. -/
theorem C9_counterexample :
    final_prompt [⟨"a.py", "x=1"⟩] "explain" ≠
      "I have the following files for context:\n\nFile: a.py\n```\nx=1\n```\n\n\nBased on these files, explain" :=
  by decide

/-- C9 amended: the dispatched prompt for that input, with the newlines the
code actually produces (four between the closing fence and `Based`). -/
theorem C9_prompt_example :
    final_prompt [⟨"a.py", "x=1"⟩] "explain" =
      "I have the following files for context:\n\nFile: a.py\n```\nx=1\n```\n\n\n\nBased on these files, explain" :=
  by decide

/-! ### Claim C10 — mid-stream read failures are swallowed -/

/-- C10: in both entry points a failed `chunk()` read is coerced to
end-of-stream by `unwrap_or(None)`: the loop consumes exactly the chunks
before the failure, the relay behaves as if the stream had ended there
(ending with the end-of-stream `"[DONE]"` when no done record occurred, with
no event mentioning the transport failure), unlike a failure to establish
the connection, which yields an `"Error: <e>"` event before `"[DONE]"`. -/
theorem C10_midstream_failure_swallowed (parse : String → Except String OllamaChunk)
    (goods : List (List Nat)) (e : String) (rest : List ReadResult)
    (st : String) (bt : Option String) :
    readsToChunks (goods.map (fun c => Except.ok (some c)) ++ Except.error e :: rest)
      = goods
    ∧ stream_response_relay parse
        (Except.ok ⟨true, st, bt,
          goods.map (fun c => Except.ok (some c)) ++ Except.error e :: rest⟩)
        = streamBodyChunks parse goods
    ∧ stream_with_files_relay parse
        (Except.ok ⟨true, st, bt,
          goods.map (fun c => Except.ok (some c)) ++ Except.error e :: rest⟩)
        = streamBodyChunks parse goods
    ∧ ((runChunks (handleLine parse) goods relayInit []).2 = false →
        (stream_response_relay parse
          (Except.ok ⟨true, st, bt,
            goods.map (fun c => Except.ok (some c)) ++ Except.error e :: rest⟩)).getLast?
          = some "[DONE]")
    ∧ stream_response_relay parse (Except.error e) = ["Error: " ++ e, "[DONE]"]
    ∧ stream_with_files_relay parse (Except.error e) = ["Error: " ++ e, "[DONE]"] := by
  have h1 : ∀ (gs : List (List Nat)),
      readsToChunks (gs.map (fun c => Except.ok (some c)) ++ Except.error e :: rest)
        = gs := by
    intro gs
    induction gs with
    | nil => rfl
    | cons g t ih => simp [readsToChunks, ih]
  have hbody : streamBody parse
      (goods.map (fun c => Except.ok (some c)) ++ Except.error e :: rest)
      = streamBodyChunks parse goods := by
    unfold streamBody
    rw [h1 goods]
  refine ⟨h1 goods, hbody, ?_, ?_, rfl, rfl⟩
  · simpa [stream_with_files_relay] using hbody
  · intro hnd
    rcases hrc : runChunks (handleLine parse) goods relayInit [] with ⟨s, ab⟩
    rw [hrc] at hnd
    simp only at hnd
    subst hnd
    show (streamBody parse _).getLast? = _
    rw [hbody]
    unfold streamBodyChunks
    rw [hrc]
    simp

theorem C10_midstream_failure_swallowed_witness :
    stream_response_relay mockParse
      (Except.ok ⟨true, "200 OK", none,
        [asciiBytes "\x7b\"response\":\"Hel\"\x7d\n"].map (fun c => Except.ok (some c))
          ++ Except.error "connection reset" :: []⟩)
      = streamBodyChunks mockParse [asciiBytes "\x7b\"response\":\"Hel\"\x7d\n"] :=
  (C10_midstream_failure_swallowed mockParse [asciiBytes "\x7b\"response\":\"Hel\"\x7d\n"]
    "connection reset" [] "200 OK" none).2.1
